import Mathlib

/-!
Formal model of the lottery ticket ledger implemented in `main.py` by the
classes `DB` (SQLite persistence) and `LotteryCore` (allocation, payment
reconciliation and the prize draw).

Modelling conventions:
* The SQLite tables `users`, `tickets`, `payments` and `draws` are modelled as
  lists of rows; the `AUTOINCREMENT` payment id and the in-memory ticket
  cursor `next_ticket` are carried in the state record.
* Monetary amounts (SQLite `REAL`, Python `float`) are modelled as rationals.
  Python `round` (banker's rounding, used in `round(qty * TICKET_PRICE, 6)`
  and `int(round(amount / TICKET_PRICE))`) is modelled by `roundHalfEven`.
* Python `f"{telegram_id}-{tickets[0]}-{tickets[-1]}"` formatting of the
  ticket numbers is modelled by the decimal printer `natRepr`.
* The module constants `TICKET_PRICE`, `MAX_TICKETS`, `PRIZES`, `BOT_FEE` are
  gathered in a `Config`; `srcConfig` is the source's configuration.
* `random.sample(all_tickets, 3)` draws 3 distinct elements of the pool; the
  draw is parameterised by a `sample` oracle and claims about it assume the
  documented contract of `random.sample` (length, no duplicates, membership).
-/

deriving instance DecidableEq for Except

namespace Lottery

/-- Fuel-based decimal digit accumulator: mirrors the digit loop of Python's
integer formatting (repeatedly divide by 10, emit `Nat.digitChar` digits).
The fuel argument only forces termination; `natRepr` supplies enough fuel. -/
def natReprAux : Nat → Nat → List Char → List Char
  | 0, _, acc => acc
  | fuel + 1, n, acc =>
    if n < 10 then Nat.digitChar n :: acc
    else natReprAux fuel (n / 10) (Nat.digitChar (n % 10) :: acc)

/-- The decimal digit string of `n`, as Python `str`/f-string formatting
produces for a nonnegative integer. -/
def natDigits (n : Nat) : List Char := natReprAux (n + 1) n []

/-- Python `f"{n}"` for a nonnegative integer `n`. -/
def natRepr (n : Nat) : String := ⟨natDigits n⟩

/-- Python `round` on a rational: round half to even (banker's rounding). -/
def roundHalfEven (q : ℚ) : ℤ :=
  let f := q.floor
  let r := q - (f : ℚ)
  if r < 1 / 2 then f
  else if (1 / 2 : ℚ) < r then f + 1
  else if f % 2 = 0 then f else f + 1

/-- Python `round(q, 6)`: round to six decimal places, half to even. -/
def round6 (q : ℚ) : ℚ := (roundHalfEven (q * 1000000) : ℚ) / 1000000

/-- A row of the `tickets` table: `ticket_number INTEGER PRIMARY KEY`,
`telegram_id TEXT`, `active INTEGER DEFAULT 0`. -/
structure Ticket where
  ticket_number : Nat
  telegram_id : String
  active : Bool
deriving DecidableEq

/-- A row of the `payments` table: `id INTEGER PRIMARY KEY AUTOINCREMENT`,
`telegram_id TEXT`, `invoice_id TEXT`, `amount REAL`, `tx_hash TEXT`,
`confirmed INTEGER DEFAULT 0`.  `record_payment` stores `tx_hash or ""`. -/
structure Payment where
  id : Nat
  telegram_id : String
  invoice_id : String
  amount : ℚ
  tx_hash : String
  confirmed : Bool
deriving DecidableEq

/-- A row of the `draws` table.  The source serialises `winners` and `prizes`
as comma-joined text columns; the row is modelled structurally. -/
structure DrawRow where
  winners : List Nat
  prizes : List ℚ
deriving DecidableEq

/-- The persisted ledger (`lottery.db`) together with the in-memory cursor
`LotteryCore.next_ticket` and the next `AUTOINCREMENT` payment id. -/
structure LedgerState where
  users : List String
  tickets : List Ticket
  payments : List Payment
  draws : List DrawRow
  next_payment_id : Nat
  next_ticket : Nat
deriving DecidableEq

/-- A fresh database: empty tables; `MAX(ticket_number)` is `NULL`, so
`LotteryCore.__init__` sets `next_ticket = 1`; `AUTOINCREMENT` starts at 1. -/
def initState : LedgerState := ⟨[], [], [], [], 1, 1⟩

/-- The business parameters of `main.py`: `TICKET_PRICE`, `MAX_TICKETS`,
`PRIZES`, `BOT_FEE`. -/
structure Config where
  maxTickets : Nat
  ticketPrice : ℚ
  prizes : List ℚ
  botFee : ℚ

/-- The source constants: `TICKET_PRICE = 0.5`, `MAX_TICKETS = 10000`,
`PRIZES = (2500.0, 1500.0, 500.0)`, `BOT_FEE = 500.0`. -/
def srcConfig : Config := ⟨10000, 1 / 2, [2500, 1500, 500], 500⟩

/-- `DB.ensure_user`: insert the telegram id into `users` if absent. -/
def ensure_user (s : LedgerState) (telegram_id : String) : LedgerState :=
  if telegram_id ∈ s.users then s else { s with users := s.users ++ [telegram_id] }

/-- `DB.add_tickets`: for each number, `INSERT OR REPLACE` a reserved
(`active = 0`) ticket row keyed by `ticket_number`. -/
def add_tickets (s : LedgerState) (telegram_id : String) (ticket_numbers : List Nat) :
    LedgerState :=
  { s with
    tickets := ticket_numbers.foldl
      (fun ts t => ts.filter (fun r => r.ticket_number != t) ++ [⟨t, telegram_id, false⟩])
      s.tickets }

/-- `DB.activate_tickets`: `UPDATE tickets SET active = 1` for each number. -/
def activate_tickets (s : LedgerState) (ticket_numbers : List Nat) : LedgerState :=
  { s with
    tickets := s.tickets.map fun r =>
      if r.ticket_number ∈ ticket_numbers then { r with active := true } else r }

/-- `DB.count_sold_tickets`: `SELECT COUNT(*) FROM tickets WHERE active = 1`. -/
def count_sold_tickets (s : LedgerState) : Nat :=
  (s.tickets.filter fun r => r.active).length

/-- The active ticket numbers in row order (un-sorted helper). -/
def activeNumbers (s : LedgerState) : List Nat :=
  (s.tickets.filter fun r => r.active).map fun r => r.ticket_number

/-- `DB.get_all_active_tickets`:
`SELECT ticket_number FROM tickets WHERE active = 1 ORDER BY ticket_number`. -/
def get_all_active_tickets (s : LedgerState) : List Nat :=
  List.insertionSort (· ≤ ·) (activeNumbers s)

/-- `DB.get_ticket_owner`: `SELECT telegram_id FROM tickets WHERE
ticket_number = ?`, `None` if no row matches. -/
def get_ticket_owner (s : LedgerState) (ticket_number : Nat) : Option String :=
  (s.tickets.find? fun r => r.ticket_number == ticket_number).map fun r => r.telegram_id

/-- `DB.record_payment` with `tx_hash=None, confirmed=False`: append a pending
payment row (stored `tx_hash` is `""`). -/
def record_payment (s : LedgerState) (telegram_id invoice_id : String) (amount : ℚ) :
    LedgerState :=
  { s with
    payments := s.payments ++ [⟨s.next_payment_id, telegram_id, invoice_id, amount, "", false⟩]
    next_payment_id := s.next_payment_id + 1 }

/-- The rows matched by `WHERE invoice_id = ? AND confirmed = 0`. -/
def pendingFor (ps : List Payment) (invoice_id : String) : List Payment :=
  ps.filter fun p => p.invoice_id == invoice_id && !p.confirmed

/-- `ORDER BY id DESC LIMIT 1`: the row with the greatest `id`. -/
def latestPayment : List Payment → Option Payment
  | [] => none
  | p :: ps =>
    match latestPayment ps with
    | none => some p
    | some q => if q.id ≤ p.id then some p else some q

/-- `DB.confirm_payment_by_invoice`: find the newest unconfirmed payment with
this invoice id; if found, set `confirmed = 1` and store the tx hash, and
return the matched row's data. -/
def confirm_payment_by_invoice (s : LedgerState) (invoice_id tx_hash : String) :
    Option (Payment × LedgerState) :=
  match latestPayment (pendingFor s.payments invoice_id) with
  | none => none
  | some p =>
    some (p,
      { s with
        payments := s.payments.map fun q =>
          if q.id = p.id then { q with confirmed := true, tx_hash := tx_hash } else q })

/-- `DB.save_draw`: append a draw row. -/
def save_draw (s : LedgerState) (winners : List Nat) (prizes : List ℚ) : LedgerState :=
  { s with draws := s.draws ++ [⟨winners, prizes⟩] }

/-- `LotteryCore.available`: `max(0, MAX_TICKETS - count_sold_tickets())`
(natural subtraction models the clamp at 0). -/
def available (cfg : Config) (s : LedgerState) : Nat :=
  cfg.maxTickets - count_sold_tickets s

/-- The validation failures raised by `LotteryCore` (Python exceptions with
distinct messages), plus the draw preconditions. -/
inductive LotteryError where
  | invalidQuantity
  | insufficientCapacity
  | notReady
  | insufficientPool
deriving DecidableEq

/-- The dict returned by `LotteryCore.reserve_tickets`:
`{"reserved": ..., "total_price": ..., "invoice_id": ...}`. -/
structure ReserveResult where
  reserved : List Nat
  total_price : ℚ
  invoice_id : String
deriving DecidableEq

/-- `LotteryCore.reserve_tickets`.  Validation failures happen before any
write, so the state is returned unchanged alongside the error. -/
def reserve_tickets (cfg : Config) (s : LedgerState) (telegram_id : String) (qty : Nat) :
    Except LotteryError ReserveResult × LedgerState :=
  if qty < 1 ∨ qty > 100 then (Except.error .invalidQuantity, s)
  else if qty > available cfg s then (Except.error .insufficientCapacity, s)
  else
    let tickets := (List.range qty).map fun i => s.next_ticket + i
    let s1 := add_tickets (ensure_user s telegram_id) telegram_id tickets
    let s2 := { s1 with next_ticket := s1.next_ticket + qty }
    let total_price := round6 ((qty : ℚ) * cfg.ticketPrice)
    let invoice_id :=
      telegram_id ++ "-" ++ natRepr tickets.headI ++ "-" ++ natRepr (tickets.getLast?.getD 0)
    let s3 := record_payment s2 telegram_id invoice_id total_price
    (Except.ok ⟨tickets, total_price, invoice_id⟩, s3)

/-- The dict returned by `LotteryCore.activate_payment`: either
`{"ok": False, "reason": "invoice_not_found_or_already_confirmed"}` or
`{"ok": True, "activated": ..., "telegram_id": ..., "amount": ...}`. -/
inductive ConfirmResult where
  | failure
  | success (activated : List Nat) (telegram_id : String) (amount : ℚ)
deriving DecidableEq

/-- `SELECT ticket_number FROM tickets WHERE telegram_id = ? AND active = 0
ORDER BY ticket_number DESC` (before the `LIMIT`). -/
def inactiveTicketsDesc (s : LedgerState) (telegram_id : String) : List Nat :=
  List.insertionSort (· ≥ ·)
    ((s.tickets.filter fun r => r.telegram_id == telegram_id && !r.active).map
      fun r => r.ticket_number)

/-- `LotteryCore.activate_payment`: confirm the payment, compute
`expected_qty = int(round(amount / TICKET_PRICE))`, select the owner's
inactive tickets in descending ticket-number order with `LIMIT expected_qty`
(a negative SQLite `LIMIT` means no limit), and activate them. -/
def activate_payment (cfg : Config) (s : LedgerState) (invoice_id tx_hash : String) :
    ConfirmResult × LedgerState :=
  match confirm_payment_by_invoice s invoice_id tx_hash with
  | none => (ConfirmResult.failure, s)
  | some (p, s1) =>
    let expected_qty : ℤ := roundHalfEven (p.amount / cfg.ticketPrice)
    let ticket_numbers :=
      if expected_qty < 0 then inactiveTicketsDesc s1 p.telegram_id
      else (inactiveTicketsDesc s1 p.telegram_id).take expected_qty.toNat
    let s2 := if ticket_numbers.isEmpty then s1 else activate_tickets s1 ticket_numbers
    (ConfirmResult.success ticket_numbers p.telegram_id p.amount, s2)

/-- The dict returned by `LotteryCore.draw_winners`; `payouts` is the Python
dict `owner -> aggregated prize`, modelled as its lookup function (absent keys
read as `0`, matching `payouts.get(owner, 0.0)`). -/
structure DrawResult where
  winners : List Nat
  payouts : Option String → ℚ
  bot_fee : ℚ

/-- The payout aggregation loop of `draw_winners`:
`payouts[owner] = payouts.get(owner, 0.0) + PRIZES[i]` for `i, t` in
`enumerate(winners)`. -/
def computePayouts (s : LedgerState) (winners : List Nat) (prizes : List ℚ) :
    Option String → ℚ :=
  (winners.zip prizes).foldl
    (fun payouts tp o =>
      if o = get_ticket_owner s tp.1 then payouts o + tp.2 else payouts o)
    fun _ => 0

/-- `LotteryCore.draw_winners`, parameterised by the `random.sample` oracle. -/
def draw_winners (cfg : Config) (sample : List Nat → Nat → List Nat) (s : LedgerState) :
    Except LotteryError DrawResult × LedgerState :=
  let sold := count_sold_tickets s
  if sold < cfg.maxTickets then (Except.error .notReady, s)
  else
    let all_tickets := get_all_active_tickets s
    if all_tickets.length < 3 then (Except.error .insufficientPool, s)
    else
      let winners := sample all_tickets 3
      let payouts := computePayouts s winners cfg.prizes
      (Except.ok ⟨winners, payouts, cfg.botFee⟩, save_draw s winners cfg.prizes)

/-- The invoice id format of `reserve_tickets`:
`f"{telegram_id}-{tickets[0]}-{tickets[-1]}"`. -/
def encodeInvoice (o : String) (f l : Nat) : String :=
  o ++ "-" ++ natRepr f ++ "-" ++ natRepr l

/-- The ledger states reachable from a fresh database through the core
operations (failed operations return the state unchanged, so they are covered
as well). -/
inductive Reachable (cfg : Config) : LedgerState → Prop where
  | init : Reachable cfg initState
  | reserve (s : LedgerState) (telegram_id : String) (qty : Nat) :
      Reachable cfg s → Reachable cfg (reserve_tickets cfg s telegram_id qty).2
  | confirm (s : LedgerState) (invoice_id tx_hash : String) :
      Reachable cfg s → Reachable cfg (activate_payment cfg s invoice_id tx_hash).2
  | draw (s : LedgerState) (sample : List Nat → Nat → List Nat) :
      Reachable cfg s → Reachable cfg (draw_winners cfg sample s).2

/-! ### Decimal printing lemmas -/

theorem natReprAux_append (fuel : Nat) : ∀ (n : Nat) (acc : List Char), n < fuel →
    natReprAux fuel n acc = natReprAux fuel n [] ++ acc := by
  induction fuel with
  | zero => intro n acc h; omega
  | succ f ih =>
    intro n acc _
    by_cases h10 : n < 10
    · simp [natReprAux, h10]
    · have hdiv : n / 10 < n := Nat.div_lt_self (by omega) (by omega)
      have hf : n / 10 < f := by omega
      simp only [natReprAux, if_neg h10]
      rw [ih (n / 10) (Nat.digitChar (n % 10) :: acc) hf,
        ih (n / 10) [Nat.digitChar (n % 10)] hf, List.append_assoc, List.singleton_append]

theorem natReprAux_fuel (n : Nat) : ∀ (fuel fuel' : Nat) (acc : List Char),
    n < fuel → n < fuel' → natReprAux fuel n acc = natReprAux fuel' n acc := by
  induction n using Nat.strong_induction_on with
  | _ n ih =>
    intro fuel fuel' acc h h'
    match fuel, fuel' with
    | f + 1, f' + 1 =>
      by_cases h10 : n < 10
      · simp [natReprAux, h10]
      · have hdiv : n / 10 < n := Nat.div_lt_self (by omega) (by omega)
        simp only [natReprAux, if_neg h10]
        exact ih (n / 10) hdiv f f' _ (by omega) (by omega)

theorem natDigits_of_lt (n : Nat) (h : n < 10) : natDigits n = [Nat.digitChar n] := by
  simp [natDigits, natReprAux, h]

theorem natDigits_of_ge (n : Nat) (h : 10 ≤ n) :
    natDigits n = natDigits (n / 10) ++ [Nat.digitChar (n % 10)] := by
  have hdiv : n / 10 < n := Nat.div_lt_self (by omega) (by omega)
  have h1 : natDigits n = natReprAux n (n / 10) [Nat.digitChar (n % 10)] := by
    simp only [natDigits, natReprAux, if_neg (by omega : ¬ n < 10)]
  rw [h1, natReprAux_append n (n / 10) [Nat.digitChar (n % 10)] (by omega),
    natReprAux_fuel (n / 10) n (n / 10 + 1) [] (by omega) (by omega)]
  rfl

theorem digitChar_ne_dash : ∀ d : Nat, d < 10 → Nat.digitChar d ≠ '-' := by decide

theorem dash_not_mem_natDigits (n : Nat) : '-' ∉ natDigits n := by
  induction n using Nat.strong_induction_on with
  | _ n ih =>
    by_cases h10 : n < 10
    · rw [natDigits_of_lt n h10]
      simp only [List.mem_singleton]
      exact fun hh => digitChar_ne_dash n h10 hh.symm
    · have hdiv : n / 10 < n := Nat.div_lt_self (by omega) (by omega)
      rw [natDigits_of_ge n (by omega)]
      intro hmem
      rcases List.mem_append.1 hmem with hm | hm
      · exact ih (n / 10) hdiv hm
      · rw [List.mem_singleton] at hm
        exact digitChar_ne_dash (n % 10) (Nat.mod_lt n (by omega)) hm.symm

/-- Reading a digit character back as a value: inverse of `Nat.digitChar` on
decimal digits. -/
def chVal (c : Char) : Nat := c.toNat - 48

/-- The numeric value of a decimal digit string (most significant first). -/
def lVal (cs : List Char) : Nat := cs.foldl (fun a c => 10 * a + chVal c) 0

theorem chVal_digitChar : ∀ d : Nat, d < 10 → chVal (Nat.digitChar d) = d := by decide

theorem lVal_append_singleton (u : List Char) (c : Char) :
    lVal (u ++ [c]) = 10 * lVal u + chVal c := by
  simp [lVal, List.foldl_append]

theorem lVal_natDigits (n : Nat) : lVal (natDigits n) = n := by
  induction n using Nat.strong_induction_on with
  | _ n ih =>
    by_cases h10 : n < 10
    · rw [natDigits_of_lt n h10]
      simp [lVal, chVal_digitChar n h10]
    · have hdiv : n / 10 < n := Nat.div_lt_self (by omega) (by omega)
      rw [natDigits_of_ge n (by omega), lVal_append_singleton, ih (n / 10) hdiv,
        chVal_digitChar (n % 10) (Nat.mod_lt n (by omega))]
      omega

theorem natDigits_inj {m n : Nat} (h : natDigits m = natDigits n) : m = n := by
  have hm := lVal_natDigits m
  rw [h, lVal_natDigits] at hm
  omega

theorem natRepr_data (n : Nat) : (natRepr n).data = natDigits n := rfl

/-- Splitting a char list at a separator that is known not to occur in the
left part determines both parts. -/
theorem append_dash_inj : ∀ (u₁ : List Char) {u₂ v₁ v₂ : List Char}, '-' ∉ u₁ → '-' ∉ u₂ →
    u₁ ++ '-' :: v₁ = u₂ ++ '-' :: v₂ → u₁ = u₂ ∧ v₁ = v₂ := by
  intro u₁
  induction u₁ with
  | nil =>
    intro u₂ v₁ v₂ _ hu₂ h
    cases u₂ with
    | nil => simpa using h
    | cons b t =>
      rw [List.nil_append, List.cons_append, List.cons.injEq] at h
      exact absurd (h.1 ▸ List.mem_cons_self b t) hu₂
  | cons a t ih =>
    intro u₂ v₁ v₂ hu₁ hu₂ h
    cases u₂ with
    | nil =>
      rw [List.nil_append, List.cons_append, List.cons.injEq] at h
      exact absurd (h.1 ▸ List.mem_cons_self a t) hu₁
    | cons b t₂ =>
      rw [List.cons_append, List.cons_append, List.cons.injEq] at h
      obtain ⟨rfl, h2⟩ := h
      obtain ⟨rfl, rfl⟩ := ih (fun hm => hu₁ (List.mem_cons_of_mem _ hm))
        (fun hm => hu₂ (List.mem_cons_of_mem _ hm)) h2
      exact ⟨rfl, rfl⟩

theorem encodeInvoice_inj {o₁ o₂ : String} {f₁ l₁ f₂ l₂ : Nat}
    (h : encodeInvoice o₁ f₁ l₁ = encodeInvoice o₂ f₂ l₂) :
    o₁ = o₂ ∧ f₁ = f₂ ∧ l₁ = l₂ := by
  have hdL₁ : '-' ∉ (natDigits l₁).reverse :=
    fun hm => dash_not_mem_natDigits l₁ (List.mem_reverse.1 hm)
  have hdL₂ : '-' ∉ (natDigits l₂).reverse :=
    fun hm => dash_not_mem_natDigits l₂ (List.mem_reverse.1 hm)
  have hdF₁ : '-' ∉ (natDigits f₁).reverse :=
    fun hm => dash_not_mem_natDigits f₁ (List.mem_reverse.1 hm)
  have hdF₂ : '-' ∉ (natDigits f₂).reverse :=
    fun hm => dash_not_mem_natDigits f₂ (List.mem_reverse.1 hm)
  have hd := congrArg String.data h
  simp only [encodeInvoice, String.data_append, natRepr_data] at hd
  have hrev := congrArg List.reverse hd
  simp only [List.reverse_append, List.reverse_cons, List.reverse_nil, List.nil_append,
    List.singleton_append, List.append_assoc] at hrev
  obtain ⟨hL, hrest⟩ := append_dash_inj _ hdL₁ hdL₂ hrev
  have hrest' : (natDigits f₁).reverse ++ '-' :: o₁.data.reverse
      = (natDigits f₂).reverse ++ '-' :: o₂.data.reverse := by
    simpa [List.append_assoc] using hrest
  obtain ⟨hF, hO⟩ := append_dash_inj _ hdF₁ hdF₂ hrest'
  exact ⟨String.ext (List.reverse_injective hO), natDigits_inj (List.reverse_injective hF),
    natDigits_inj (List.reverse_injective hL)⟩

/-! ### Rounding lemmas -/

theorem ratFloor_eq_floor (q : ℚ) : q.floor = ⌊q⌋ := by
  rw [Rat.floor_def', Rat.floor_def]

/-- Python `round` is the identity on integers. -/
theorem roundHalfEven_intCast (k : ℤ) : roundHalfEven (k : ℚ) = k := by
  rw [roundHalfEven]
  simp only [ratFloor_eq_floor, Int.floor_intCast, sub_self]
  norm_num

theorem roundHalfEven_natCast (k : ℕ) : roundHalfEven (k : ℚ) = k := by
  have : ((k : ℤ) : ℚ) = (k : ℚ) := by push_cast; ring
  rw [← this, roundHalfEven_intCast]

/-! ### Range helpers -/

theorem range'_succ_one (a n : ℕ) : List.range' a (n + 1) = a :: List.range' (a + 1) n := by
  simpa using List.range'_succ a n 1

theorem headI_range' (a n : ℕ) (h : 1 ≤ n) : (List.range' a n).headI = a := by
  match n, h with
  | m + 1, _ => rw [range'_succ_one]; rfl

theorem getLast?_range' (a n : ℕ) : (List.range' a (n + 1)).getLast? = some (a + n) := by
  induction n generalizing a with
  | zero => rfl
  | succ m ih =>
    have h2 : List.range' (a + 1) (m + 1) = (a + 1) :: List.range' (a + 2) m := by
      simpa [Nat.add_assoc] using List.range'_succ (a + 1) m 1
    rw [range'_succ_one, h2, List.getLast?_cons_cons, ← h2, ih]
    exact congrArg some (by omega)

/-! ### State-access framing lemmas -/

theorem count_sold_tickets_congr {s s' : LedgerState} (h : s'.tickets = s.tickets) :
    count_sold_tickets s' = count_sold_tickets s := by
  rw [count_sold_tickets, count_sold_tickets, h]

theorem activeNumbers_congr {s s' : LedgerState} (h : s'.tickets = s.tickets) :
    activeNumbers s' = activeNumbers s := by
  rw [activeNumbers, activeNumbers, h]

theorem get_all_active_tickets_congr {s s' : LedgerState} (h : s'.tickets = s.tickets) :
    get_all_active_tickets s' = get_all_active_tickets s := by
  rw [get_all_active_tickets, get_all_active_tickets, activeNumbers_congr h]

theorem inactiveTicketsDesc_congr {s s' : LedgerState} (h : s'.tickets = s.tickets)
    (tid : String) : inactiveTicketsDesc s' tid = inactiveTicketsDesc s tid := by
  rw [inactiveTicketsDesc, inactiveTicketsDesc, h]

/-! ### Field projections of the database helpers -/

@[simp] theorem ensure_user_tickets (s : LedgerState) (tid : String) :
    (ensure_user s tid).tickets = s.tickets := by
  rw [ensure_user]; split_ifs <;> rfl

@[simp] theorem ensure_user_payments (s : LedgerState) (tid : String) :
    (ensure_user s tid).payments = s.payments := by
  rw [ensure_user]; split_ifs <;> rfl

@[simp] theorem ensure_user_draws (s : LedgerState) (tid : String) :
    (ensure_user s tid).draws = s.draws := by
  rw [ensure_user]; split_ifs <;> rfl

@[simp] theorem ensure_user_next_payment_id (s : LedgerState) (tid : String) :
    (ensure_user s tid).next_payment_id = s.next_payment_id := by
  rw [ensure_user]; split_ifs <;> rfl

@[simp] theorem ensure_user_next_ticket (s : LedgerState) (tid : String) :
    (ensure_user s tid).next_ticket = s.next_ticket := by
  rw [ensure_user]; split_ifs <;> rfl

@[simp] theorem add_tickets_users (s : LedgerState) (tid : String) (ns : List Nat) :
    (add_tickets s tid ns).users = s.users := rfl

theorem add_tickets_tickets (s : LedgerState) (tid : String) (ns : List Nat) :
    (add_tickets s tid ns).tickets = ns.foldl
      (fun ts t => ts.filter (fun r => r.ticket_number != t) ++ [⟨t, tid, false⟩])
      s.tickets := rfl

@[simp] theorem add_tickets_payments (s : LedgerState) (tid : String) (ns : List Nat) :
    (add_tickets s tid ns).payments = s.payments := rfl

@[simp] theorem add_tickets_draws (s : LedgerState) (tid : String) (ns : List Nat) :
    (add_tickets s tid ns).draws = s.draws := rfl

@[simp] theorem add_tickets_next_payment_id (s : LedgerState) (tid : String) (ns : List Nat) :
    (add_tickets s tid ns).next_payment_id = s.next_payment_id := rfl

@[simp] theorem add_tickets_next_ticket (s : LedgerState) (tid : String) (ns : List Nat) :
    (add_tickets s tid ns).next_ticket = s.next_ticket := rfl

@[simp] theorem activate_tickets_users (s : LedgerState) (ns : List Nat) :
    (activate_tickets s ns).users = s.users := rfl

@[simp] theorem activate_tickets_payments (s : LedgerState) (ns : List Nat) :
    (activate_tickets s ns).payments = s.payments := rfl

@[simp] theorem activate_tickets_draws (s : LedgerState) (ns : List Nat) :
    (activate_tickets s ns).draws = s.draws := rfl

@[simp] theorem activate_tickets_next_payment_id (s : LedgerState) (ns : List Nat) :
    (activate_tickets s ns).next_payment_id = s.next_payment_id := rfl

@[simp] theorem activate_tickets_next_ticket (s : LedgerState) (ns : List Nat) :
    (activate_tickets s ns).next_ticket = s.next_ticket := rfl

@[simp] theorem record_payment_tickets (s : LedgerState) (tid inv : String) (a : ℚ) :
    (record_payment s tid inv a).tickets = s.tickets := rfl

@[simp] theorem record_payment_users (s : LedgerState) (tid inv : String) (a : ℚ) :
    (record_payment s tid inv a).users = s.users := rfl

@[simp] theorem record_payment_draws (s : LedgerState) (tid inv : String) (a : ℚ) :
    (record_payment s tid inv a).draws = s.draws := rfl

@[simp] theorem record_payment_next_ticket (s : LedgerState) (tid inv : String) (a : ℚ) :
    (record_payment s tid inv a).next_ticket = s.next_ticket := rfl

@[simp] theorem record_payment_payments (s : LedgerState) (tid inv : String) (a : ℚ) :
    (record_payment s tid inv a).payments
      = s.payments ++ [⟨s.next_payment_id, tid, inv, a, "", false⟩] := rfl

@[simp] theorem save_draw_tickets (s : LedgerState) (w : List Nat) (pz : List ℚ) :
    (save_draw s w pz).tickets = s.tickets := rfl

@[simp] theorem save_draw_payments (s : LedgerState) (w : List Nat) (pz : List ℚ) :
    (save_draw s w pz).payments = s.payments := rfl

@[simp] theorem save_draw_users (s : LedgerState) (w : List Nat) (pz : List ℚ) :
    (save_draw s w pz).users = s.users := rfl

@[simp] theorem save_draw_next_ticket (s : LedgerState) (w : List Nat) (pz : List ℚ) :
    (save_draw s w pz).next_ticket = s.next_ticket := rfl

@[simp] theorem save_draw_next_payment_id (s : LedgerState) (w : List Nat) (pz : List ℚ) :
    (save_draw s w pz).next_payment_id = s.next_payment_id := rfl

@[simp] theorem save_draw_draws (s : LedgerState) (w : List Nat) (pz : List ℚ) :
    (save_draw s w pz).draws = s.draws ++ [⟨w, pz⟩] := rfl

/-! ### Elimination lemmas for the core operations -/

/-- Anatomy of a successful `reserve_tickets` call. -/
theorem reserve_tickets_ok {cfg : Config} {s : LedgerState} {tid : String} {qty : Nat}
    {r : ReserveResult} {s' : LedgerState}
    (h : reserve_tickets cfg s tid qty = (Except.ok r, s')) :
    1 ≤ qty ∧ qty ≤ 100 ∧ qty ≤ available cfg s ∧
    r.reserved = List.range' s.next_ticket qty ∧
    r.total_price = round6 ((qty : ℚ) * cfg.ticketPrice) ∧
    r.invoice_id = encodeInvoice tid s.next_ticket (s.next_ticket + (qty - 1)) ∧
    s' = record_payment
      { add_tickets (ensure_user s tid) tid r.reserved with next_ticket := s.next_ticket + qty }
      tid r.invoice_id r.total_price := by
  rw [reserve_tickets] at h
  split_ifs at h with h1 h2
  · exact absurd (congrArg Prod.fst h) (by simp)
  · exact absurd (congrArg Prod.fst h) (by simp)
  · push_neg at h1 h2
    have hq1 : 1 ≤ qty := by omega
    have hmap : (List.range qty).map (fun i => s.next_ticket + i) =
        List.range' s.next_ticket qty := (List.range'_eq_map_range _ _).symm
    simp only [hmap, Prod.mk.injEq, Except.ok.injEq] at h
    obtain ⟨hr, hs⟩ := h
    subst hr
    have hhead : (List.range' s.next_ticket qty).headI = s.next_ticket :=
      headI_range' _ _ hq1
    have hlast : (List.range' s.next_ticket qty).getLast?.getD 0 = s.next_ticket + (qty - 1) := by
      match qty, hq1 with
      | m + 1, _ => rw [getLast?_range']; rfl
    refine ⟨hq1, by omega, by omega, rfl, rfl, ?_, ?_⟩
    · simp [encodeInvoice, hhead, hlast]
    · rw [← hs]
      simp [encodeInvoice, hhead, hlast]

/-- A failed `reserve_tickets` call leaves the state unchanged and reports
which validation rejected it. -/
theorem reserve_tickets_err {cfg : Config} {s : LedgerState} {tid : String} {qty : Nat}
    {e : LotteryError} {s' : LedgerState}
    (h : reserve_tickets cfg s tid qty = (Except.error e, s')) :
    s' = s ∧ ((qty < 1 ∨ qty > 100) ∧ e = .invalidQuantity ∨
      (1 ≤ qty ∧ qty ≤ 100 ∧ qty > available cfg s ∧ e = .insufficientCapacity)) := by
  rw [reserve_tickets] at h
  split_ifs at h with h1 h2
  · simp only [Prod.mk.injEq, Except.error.injEq] at h
    exact ⟨h.2.symm, Or.inl ⟨h1, h.1.symm⟩⟩
  · push_neg at h1
    simp only [Prod.mk.injEq, Except.error.injEq] at h
    exact ⟨h.2.symm, Or.inr ⟨by omega, by omega, h2, h.1.symm⟩⟩
  · exact absurd (congrArg Prod.fst h) (by simp)

theorem latestPayment_mem : ∀ {l : List Payment} {p : Payment},
    latestPayment l = some p → p ∈ l := by
  intro l
  induction l with
  | nil => intro p h; simp [latestPayment] at h
  | cons q t ih =>
    intro p h
    cases hlt : latestPayment t with
    | none =>
      simp only [latestPayment, hlt, Option.some.injEq] at h
      simp [h]
    | some q' =>
      simp only [latestPayment, hlt] at h
      split_ifs at h with hid
      · simp only [Option.some.injEq] at h
        simp [h]
      · simp only [Option.some.injEq] at h
        exact List.mem_cons_of_mem _ (ih (h ▸ hlt))

theorem latestPayment_eq_none {l : List Payment} : latestPayment l = none ↔ l = [] := by
  cases l with
  | nil => simp [latestPayment]
  | cons q t =>
    simp only [List.cons_ne_nil, iff_false]
    intro h
    cases hlt : latestPayment t with
    | none => simp [latestPayment, hlt] at h
    | some q' =>
      simp only [latestPayment, hlt] at h
      split_ifs at h

theorem mem_pendingFor {ps : List Payment} {inv : String} {p : Payment} :
    p ∈ pendingFor ps inv ↔ p ∈ ps ∧ p.invoice_id = inv ∧ p.confirmed = false := by
  simp [pendingFor, List.mem_filter, and_assoc]

/-- Anatomy of a successful `confirm_payment_by_invoice` call. -/
theorem confirm_payment_some {s : LedgerState} {inv tx : String} {p : Payment}
    {s₁ : LedgerState} (h : confirm_payment_by_invoice s inv tx = some (p, s₁)) :
    p ∈ s.payments ∧ p.invoice_id = inv ∧ p.confirmed = false ∧
    s₁ = { s with payments := s.payments.map fun q =>
      if q.id = p.id then { q with confirmed := true, tx_hash := tx } else q } := by
  rw [confirm_payment_by_invoice] at h
  match hlt : latestPayment (pendingFor s.payments inv) with
  | none => rw [hlt] at h; simp at h
  | some p' =>
    rw [hlt] at h
    simp only [Option.some.injEq, Prod.mk.injEq] at h
    obtain ⟨rfl, hs⟩ := h
    have hmem := mem_pendingFor.1 (latestPayment_mem hlt)
    exact ⟨hmem.1, hmem.2.1, hmem.2.2, hs.symm⟩

theorem confirm_payment_none_of_pending_nil {s : LedgerState} {inv tx : String}
    (h : pendingFor s.payments inv = []) :
    confirm_payment_by_invoice s inv tx = none := by
  rw [confirm_payment_by_invoice, h]
  rfl

/-- Anatomy of a successful `activate_payment` call. -/
theorem activate_payment_success {cfg : Config} {s : LedgerState} {inv tx : String}
    {acts : List Nat} {tid : String} {amt : ℚ} {s' : LedgerState}
    (h : activate_payment cfg s inv tx = (ConfirmResult.success acts tid amt, s')) :
    ∃ p s₁, confirm_payment_by_invoice s inv tx = some (p, s₁) ∧
      p.telegram_id = tid ∧ p.amount = amt ∧
      acts = (if roundHalfEven (p.amount / cfg.ticketPrice) < 0
        then inactiveTicketsDesc s₁ p.telegram_id
        else (inactiveTicketsDesc s₁ p.telegram_id).take
          (roundHalfEven (p.amount / cfg.ticketPrice)).toNat) ∧
      s' = if acts.isEmpty then s₁ else activate_tickets s₁ acts := by
  cases hc : confirm_payment_by_invoice s inv tx with
  | none => simp [activate_payment, hc] at h
  | some ps =>
    obtain ⟨p, s₁⟩ := ps
    simp only [activate_payment, hc] at h
    simp only [Prod.mk.injEq, ConfirmResult.success.injEq] at h
    obtain ⟨⟨hacts, htid, hamt⟩, hs⟩ := h
    refine ⟨p, s₁, rfl, htid, hamt, hacts.symm, ?_⟩
    rw [← hs, hacts]

/-- When no pending payment matches the invoice id, `activate_payment` reports
the failure and leaves the ledger unchanged. -/
theorem activate_payment_of_pending_nil (cfg : Config) {s : LedgerState} {inv : String}
    (h : pendingFor s.payments inv = []) (tx : String) :
    activate_payment cfg s inv tx = (ConfirmResult.failure, s) := by
  rw [activate_payment, confirm_payment_none_of_pending_nil h]

/-- After confirming the unique pending payment carrying an invoice id, no
pending payment matches that invoice id any more. -/
theorem pending_nil_after_confirm {s : LedgerState} {inv tx : String} {p : Payment}
    {s₁ : LedgerState}
    (huniq : ∀ q ∈ s.payments, q.invoice_id = inv → q = p)
    (hc : confirm_payment_by_invoice s inv tx = some (p, s₁)) :
    pendingFor s₁.payments inv = [] := by
  obtain ⟨hp, hpinv, hpconf, hs₁⟩ := confirm_payment_some hc
  rw [hs₁]
  rw [pendingFor, List.filter_eq_nil_iff]
  intro q' hq'
  rw [List.mem_map] at hq'
  obtain ⟨q, hq, rfl⟩ := hq'
  by_cases hid : q.id = p.id
  · simp [hid]
  · rw [if_neg hid]
    by_cases hqi : q.invoice_id = inv
    · exact absurd (congrArg Payment.id (huniq q hq hqi)) hid
    · simp [hqi]

theorem add_tickets_foldl_length (tid : String) : ∀ (ns : List Nat) (ts : List Ticket),
    (ns.foldl
      (fun ts t => ts.filter (fun r => r.ticket_number != t) ++ [⟨t, tid, false⟩]) ts).length
      ≤ ts.length + ns.length := by
  intro ns
  induction ns with
  | nil => intro ts; simp
  | cons n ns ih =>
    intro ts
    rw [List.foldl_cons]
    refine le_trans (ih _) ?_
    simp only [List.length_append, List.length_cons, List.length_nil]
    have := List.length_filter_le (fun r : Ticket => r.ticket_number != n) ts
    omega

/-! ### The reachability invariant -/

/-- Structural invariant of states reachable through the core operations:
every payment's invoice id is of the form `owner-first-last` with the encoded
ticket numbers below the cursor, invoice ids are pairwise distinct, and the
number of ticket rows is below the cursor. -/
structure Inv (s : LedgerState) : Prop where
  invoiceShape : ∀ p ∈ s.payments,
    ∃ o f l, p.invoice_id = encodeInvoice o f l ∧ f ≤ l ∧ l < s.next_ticket
  invoiceNodup : (s.payments.map fun p => p.invoice_id).Nodup
  ticketBound : s.tickets.length < s.next_ticket

theorem inv_init : Inv initState :=
  ⟨by simp [initState], by simp [initState], by simp [initState]⟩

theorem inv_reserve (cfg : Config) (s : LedgerState) (tid : String) (qty : Nat)
    (hI : Inv s) : Inv (reserve_tickets cfg s tid qty).2 := by
  cases hres : (reserve_tickets cfg s tid qty).1 with
  | error e =>
    have h : reserve_tickets cfg s tid qty = (Except.error e, (reserve_tickets cfg s tid qty).2) := by
      rw [← hres]
    obtain ⟨hs, -⟩ := reserve_tickets_err h
    rw [hs]; exact hI
  | ok r =>
    have h : reserve_tickets cfg s tid qty = (Except.ok r, (reserve_tickets cfg s tid qty).2) := by
      rw [← hres]
    obtain ⟨hq1, -, -, hresv, -, hinv, hs⟩ := reserve_tickets_ok h
    rw [hs]
    constructor
    · intro p hp
      simp only [record_payment_payments, add_tickets_payments, ensure_user_payments] at hp
      rcases List.mem_append.1 hp with hp | hp
      · obtain ⟨o, f, l, heq, hfl, hlt⟩ := hI.invoiceShape p hp
        exact ⟨o, f, l, heq, hfl, by simp [record_payment]; omega⟩
      · rw [List.mem_singleton] at hp
        refine ⟨tid, s.next_ticket, s.next_ticket + (qty - 1), ?_, by omega, ?_⟩
        · rw [hp, hinv]
        · simp [record_payment]; omega
    · simp only [record_payment_payments, add_tickets_payments, ensure_user_payments,
        List.map_append, List.map_cons, List.map_nil]
      rw [List.nodup_append]
      refine ⟨hI.invoiceNodup, List.nodup_singleton _, ?_⟩
      intro y hy
      rw [List.mem_map] at hy
      obtain ⟨q, hq, rfl⟩ := hy
      rw [List.mem_singleton]
      intro hcontra
      obtain ⟨o, f, l, heq, hfl, hlt⟩ := hI.invoiceShape q hq
      rw [heq, hinv] at hcontra
      obtain ⟨-, hf, hl⟩ := encodeInvoice_inj hcontra
      omega
    · simp only [record_payment_tickets, record_payment_next_ticket]
      have h1 : (add_tickets (ensure_user s tid) tid r.reserved).tickets.length
          ≤ s.tickets.length + qty := by
        rw [add_tickets_tickets, ensure_user_tickets, hresv]
        have := add_tickets_foldl_length tid (List.range' s.next_ticket qty) s.tickets
        simpa [List.length_range'] using this
      have h2 := hI.ticketBound
      omega

theorem inv_confirm_upd (s : LedgerState) (pid : Nat) (tx : String) (hI : Inv s) :
    Inv { s with payments := s.payments.map fun q =>
      if q.id = pid then { q with confirmed := true, tx_hash := tx } else q } := by
  have hmap : ((s.payments.map fun q =>
      if q.id = pid then { q with confirmed := true, tx_hash := tx } else q).map
        fun p => p.invoice_id) = s.payments.map fun p => p.invoice_id := by
    rw [List.map_map]
    apply List.map_congr_left
    intro q _
    by_cases hid : q.id = pid <;> simp [hid]
  constructor
  · intro p hp
    simp only [List.mem_map] at hp
    obtain ⟨q, hq, rfl⟩ := hp
    obtain ⟨o, f, l, heq, hfl, hlt⟩ := hI.invoiceShape q hq
    by_cases hid : q.id = pid
    · refine ⟨o, f, l, ?_, hfl, hlt⟩
      simp [hid, heq]
    · refine ⟨o, f, l, ?_, hfl, hlt⟩
      simp [hid, heq]
  · simpa [hmap] using hI.invoiceNodup
  · exact hI.ticketBound

theorem inv_activate_tickets (s : LedgerState) (ns : List Nat) (hI : Inv s) :
    Inv (activate_tickets s ns) := by
  constructor
  · intro p hp
    rw [activate_tickets_payments] at hp
    obtain ⟨o, f, l, heq, hfl, hlt⟩ := hI.invoiceShape p hp
    exact ⟨o, f, l, heq, hfl, by simpa [activate_tickets] using hlt⟩
  · rw [activate_tickets_payments]; exact hI.invoiceNodup
  · have : (activate_tickets s ns).tickets.length = s.tickets.length := by
      simp [activate_tickets]
    rw [this]
    simpa [activate_tickets] using hI.ticketBound

theorem inv_confirm (cfg : Config) (s : LedgerState) (inv tx : String) (hI : Inv s) :
    Inv (activate_payment cfg s inv tx).2 := by
  cases hc : confirm_payment_by_invoice s inv tx with
  | none =>
    have h2 : (activate_payment cfg s inv tx).2 = s := by simp [activate_payment, hc]
    rw [h2]; exact hI
  | some ps =>
    obtain ⟨p, s₁⟩ := ps
    obtain ⟨-, -, -, hs₁⟩ := confirm_payment_some hc
    have hI₁ : Inv s₁ := by rw [hs₁]; exact inv_confirm_upd s p.id tx hI
    have h2 : (activate_payment cfg s inv tx).2
        = (if (if roundHalfEven (p.amount / cfg.ticketPrice) < 0
            then inactiveTicketsDesc s₁ p.telegram_id
            else (inactiveTicketsDesc s₁ p.telegram_id).take
              (roundHalfEven (p.amount / cfg.ticketPrice)).toNat).isEmpty
          then s₁
          else activate_tickets s₁
            (if roundHalfEven (p.amount / cfg.ticketPrice) < 0
            then inactiveTicketsDesc s₁ p.telegram_id
            else (inactiveTicketsDesc s₁ p.telegram_id).take
              (roundHalfEven (p.amount / cfg.ticketPrice)).toNat)) := by
      simp only [activate_payment, hc]
    rw [h2]
    split_ifs
    · exact hI₁
    · exact inv_activate_tickets _ _ hI₁
    · exact hI₁
    · exact inv_activate_tickets _ _ hI₁

theorem inv_save_draw (s : LedgerState) (w : List Nat) (pz : List ℚ) (hI : Inv s) :
    Inv (save_draw s w pz) := by
  constructor
  · intro p hp
    rw [save_draw_payments] at hp
    obtain ⟨o, f, l, heq, hfl, hlt⟩ := hI.invoiceShape p hp
    exact ⟨o, f, l, heq, hfl, by simpa [save_draw] using hlt⟩
  · rw [save_draw_payments]; exact hI.invoiceNodup
  · simpa [save_draw] using hI.ticketBound

theorem inv_draw (cfg : Config) (sample : List Nat → Nat → List Nat) (s : LedgerState)
    (hI : Inv s) : Inv (draw_winners cfg sample s).2 := by
  simp only [draw_winners]
  split_ifs
  · exact hI
  · exact hI
  · exact inv_save_draw _ _ _ hI

/-- Every reachable state satisfies the structural invariant. -/
theorem reach_inv {cfg : Config} {s : LedgerState} (h : Reachable cfg s) : Inv s := by
  induction h with
  | init => exact inv_init
  | reserve s tid qty _ ih => exact inv_reserve cfg s tid qty ih
  | confirm s inv tx _ ih => exact inv_confirm cfg s inv tx ih
  | draw s sample _ ih => exact inv_draw cfg sample s ih

/-- Invoice ids identify payments uniquely under the invariant. -/
theorem invoice_unique_of_inv {s : LedgerState} (hI : Inv s) {p q : Payment}
    (hp : p ∈ s.payments) (hq : q ∈ s.payments) (h : q.invoice_id = p.invoice_id) : q = p :=
  List.inj_on_of_nodup_map hI.invoiceNodup hq hp h

/-! ### Ticket membership helpers -/

theorem mem_inactiveTicketsDesc {s : LedgerState} {tid : String} {t : Nat}
    (h : t ∈ inactiveTicketsDesc s tid) :
    ∃ r ∈ s.tickets, r.ticket_number = t ∧ r.telegram_id = tid ∧ r.active = false := by
  rw [inactiveTicketsDesc, List.mem_insertionSort, List.mem_map] at h
  obtain ⟨r, hr, hrt⟩ := h
  rw [List.mem_filter] at hr
  obtain ⟨h1, h2⟩ : r.telegram_id = tid ∧ r.active = false := by simpa using hr.2
  exact ⟨r, hr.1, hrt, h1, h2⟩

theorem mem_activeNumbers_activate {s : LedgerState} {ns : List Nat} {t : Nat}
    (ht : t ∈ ns) (hrow : ∃ r ∈ s.tickets, r.ticket_number = t) :
    t ∈ activeNumbers (activate_tickets s ns) := by
  obtain ⟨r, hr, hrt⟩ := hrow
  rw [activeNumbers, List.mem_map]
  refine ⟨{ r with active := true }, ?_, hrt⟩
  rw [List.mem_filter]
  constructor
  · show { r with active := true } ∈ (activate_tickets s ns).tickets
    rw [activate_tickets]
    simp only [List.mem_map]
    exact ⟨r, hr, by rw [if_pos (by rw [hrt]; exact ht)]⟩
  · rfl

/-- The ticket numbers reported by a successful `activate_payment` come from
inactive ticket rows of the reported owner. -/
theorem activate_payment_acts_rows {cfg : Config} {s : LedgerState} {inv tx : String}
    {acts : List Nat} {tid : String} {amt : ℚ} {s' : LedgerState}
    (h : activate_payment cfg s inv tx = (ConfirmResult.success acts tid amt, s')) :
    ∀ t ∈ acts, ∃ r ∈ s.tickets, r.ticket_number = t ∧ r.telegram_id = tid ∧ r.active = false := by
  obtain ⟨p, s₁, hc, htid, hamt, hacts, hs'⟩ := activate_payment_success h
  obtain ⟨hp, hpinv, hpconf, hs₁⟩ := confirm_payment_some hc
  have htick : s₁.tickets = s.tickets := by rw [hs₁]
  intro t ht
  have hmemdesc : t ∈ inactiveTicketsDesc s₁ p.telegram_id := by
    rw [hacts] at ht
    split_ifs at ht
    · exact ht
    · exact List.mem_of_mem_take ht
  rw [inactiveTicketsDesc_congr htick, htid] at hmemdesc
  exact mem_inactiveTicketsDesc hmemdesc

/-- C1: in every reachable ledger state, if a first `confirm` call with some
invoice id succeeds, then a second `confirm` call with the same invoice id
fails with the invoice-not-found-or-already-confirmed result, makes no change
to the ledger state, and every ticket activated by the first call is still
active afterwards. -/
theorem confirm_twice_second_fails (cfg : Config) (s s' : LedgerState)
    (inv tx tx₂ : String) (acts : List Nat) (tid : String) (amt : ℚ)
    (hre : Reachable cfg s)
    (h : activate_payment cfg s inv tx = (ConfirmResult.success acts tid amt, s')) :
    activate_payment cfg s' inv tx₂ = (ConfirmResult.failure, s')
    ∧ ∀ t ∈ acts, t ∈ activeNumbers s' := by
  obtain ⟨p, s₁, hc, htid, hamt, hacts, hs'⟩ := activate_payment_success h
  have hI := reach_inv hre
  obtain ⟨hp, hpinv, hpconf, hs₁⟩ := confirm_payment_some hc
  have huniq : ∀ q ∈ s.payments, q.invoice_id = inv → q = p := by
    intro q hq hqi
    exact invoice_unique_of_inv hI hp hq (by rw [hqi, hpinv])
  have hnil : pendingFor s₁.payments inv = [] := pending_nil_after_confirm huniq hc
  have hpay : s'.payments = s₁.payments := by
    rw [hs']; split_ifs <;> simp
  have hnil' : pendingFor s'.payments inv = [] := by rw [hpay]; exact hnil
  refine ⟨activate_payment_of_pending_nil cfg hnil' tx₂, ?_⟩
  intro t ht
  obtain ⟨r, hr, hrt, hrtid, hract⟩ := activate_payment_acts_rows h t ht
  have htick : s₁.tickets = s.tickets := by rw [hs₁]
  have hne : acts.isEmpty = false := by
    cases acts with
    | nil => exact absurd ht (List.not_mem_nil t)
    | cons a l => rfl
  rw [hs', hne]
  show t ∈ activeNumbers (activate_tickets s₁ acts)
  exact mem_activeNumbers_activate ht ⟨r, by rw [htick]; exact hr, hrt⟩

/-- The ledger after `reserve_tickets("u1", 3)` from a fresh database, with
the source configuration. -/
def c1s1 : LedgerState := (reserve_tickets srcConfig initState "u1" 3).2

/-- The ledger after additionally confirming invoice `"u1-1-3"`. -/
def c1s2 : LedgerState := (activate_payment srcConfig c1s1 "u1-1-3" "0xabc").2

/-- Witness for C1: the concrete scenario of the specification; the first
confirmation of `"u1-1-3"` succeeds activating `[3, 2, 1]`, the second
reports failure without touching the state, and ticket 3 stays active. -/
theorem confirm_twice_second_fails_witness :
    activate_payment srcConfig c1s2 "u1-1-3" "0xdef" = (ConfirmResult.failure, c1s2)
    ∧ 3 ∈ activeNumbers c1s2 := by
  have hre : Reachable srcConfig c1s1 := Reachable.reserve initState "u1" 3 Reachable.init
  have h : activate_payment srcConfig c1s1 "u1-1-3" "0xabc"
      = (ConfirmResult.success [3, 2, 1] "u1" (3 / 2), c1s2) := by
    with_unfolding_all decide
  have H := confirm_twice_second_fails srcConfig c1s1 c1s2 "u1-1-3" "0xabc" "0xdef"
    [3, 2, 1] "u1" (3 / 2) hre h
  exact ⟨H.1, H.2 3 (by simp)⟩

/-- C2: a successful `reserve` returns the contiguous range of exactly `qty`
ticket numbers starting at the previous cursor value, advances the cursor by
`qty`, prices the reservation at `round(qty * TICKET_PRICE, 6)`, derives the
invoice id `owner-firstTicket-lastTicket`, and appends exactly one pending
unconfirmed payment row for that total price. -/
theorem reserve_success_spec (cfg : Config) (s s' : LedgerState) (tid : String) (qty : Nat)
    (r : ReserveResult) (h : reserve_tickets cfg s tid qty = (Except.ok r, s')) :
    r.reserved = List.range' s.next_ticket qty
    ∧ r.reserved.length = qty
    ∧ s'.next_ticket = s.next_ticket + qty
    ∧ r.total_price = round6 ((qty : ℚ) * cfg.ticketPrice)
    ∧ r.invoice_id
        = tid ++ "-" ++ natRepr s.next_ticket ++ "-" ++ natRepr (s.next_ticket + (qty - 1))
    ∧ s'.payments
        = s.payments ++ [⟨s.next_payment_id, tid, r.invoice_id, r.total_price, "", false⟩] := by
  obtain ⟨hq1, hq2, hq3, hresv, hprice, hinv, hs⟩ := reserve_tickets_ok h
  refine ⟨hresv, by rw [hresv, List.length_range'], ?_, hprice, hinv, ?_⟩
  · rw [hs]; simp
  · rw [hs]; simp

/-- Witness for C2 at the specification's concrete scenario:
`reserve("u1", 3)` on a fresh ledger yields tickets `[1, 2, 3]`, total price
`3/2`, invoice id `"u1-1-3"`, and one pending payment row. -/
theorem reserve_success_spec_witness :
    ([1, 2, 3] : List Nat) = List.range' 1 3
    ∧ ([1, 2, 3] : List Nat).length = 3
    ∧ c1s1.next_ticket = 1 + 3
    ∧ (3 / 2 : ℚ) = round6 ((3 : ℚ) * srcConfig.ticketPrice)
    ∧ "u1-1-3" = "u1" ++ "-" ++ natRepr 1 ++ "-" ++ natRepr (1 + (3 - 1))
    ∧ c1s1.payments
        = initState.payments ++ [⟨initState.next_payment_id, "u1", "u1-1-3", 3 / 2, "", false⟩] := by
  have h : reserve_tickets srcConfig initState "u1" 3
      = (Except.ok ⟨[1, 2, 3], 3 / 2, "u1-1-3"⟩, c1s1) := by
    with_unfolding_all decide
  exact reserve_success_spec srcConfig initState c1s1 "u1" 3 ⟨[1, 2, 3], 3 / 2, "u1-1-3"⟩ h

/-- Activation flips exactly the listed ticket numbers (that have rows) to
active and leaves every other row's activity unchanged. -/
theorem activeNumbers_activate_iff (s : LedgerState) (ns : List Nat)
    (hrows : ∀ t ∈ ns, ∃ r ∈ s.tickets, r.ticket_number = t) (t : Nat) :
    t ∈ activeNumbers (activate_tickets s ns) ↔ t ∈ activeNumbers s ∨ t ∈ ns := by
  constructor
  · intro h
    rw [activeNumbers, List.mem_map] at h
    obtain ⟨r', hr', hrt⟩ := h
    rw [List.mem_filter] at hr'
    obtain ⟨hmem, hact⟩ := hr'
    have hmem' : r' ∈ s.tickets.map fun r =>
        if r.ticket_number ∈ ns then { r with active := true } else r := hmem
    rw [List.mem_map] at hmem'
    obtain ⟨r, hr, hrr⟩ := hmem'
    by_cases hc : r.ticket_number ∈ ns
    · right
      rw [if_pos hc] at hrr
      rw [← hrt, ← hrr]
      exact hc
    · left
      rw [if_neg hc] at hrr
      rw [activeNumbers, List.mem_map]
      exact ⟨r, List.mem_filter.2 ⟨hr, by rw [hrr]; exact hact⟩, by rw [hrr]; exact hrt⟩
  · intro h
    rcases h with h | h
    · rw [activeNumbers, List.mem_map] at h
      obtain ⟨r, hr, hrt⟩ := h
      rw [List.mem_filter] at hr
      by_cases hc : r.ticket_number ∈ ns
      · exact mem_activeNumbers_activate (hrt ▸ hc) ⟨r, hr.1, hrt⟩
      · rw [activeNumbers, List.mem_map]
        refine ⟨r, List.mem_filter.2 ⟨?_, hr.2⟩, hrt⟩
        show r ∈ (activate_tickets s ns).tickets
        rw [activate_tickets]
        simp only [List.mem_map]
        exact ⟨r, hr.1, by rw [if_neg hc]⟩
    · exact mem_activeNumbers_activate h (hrows t h)

/-- C3: a successful `confirm` whose recorded amount is `TICKET_PRICE * k`
activates exactly the `k` highest-numbered inactive tickets of the payment's
owner (all of them when fewer than `k` exist, silently), in descending order,
and returns exactly the set of ticket numbers it activated. -/
theorem activate_selects_highest (cfg : Config) (s s' : LedgerState) (inv tx : String)
    (acts : List Nat) (tid : String) (amt : ℚ) (k : Nat)
    (hprice : 0 < cfg.ticketPrice)
    (hamt : amt = cfg.ticketPrice * (k : ℚ))
    (h : activate_payment cfg s inv tx = (ConfirmResult.success acts tid amt, s')) :
    acts = (inactiveTicketsDesc s tid).take k
    ∧ acts.length
        = min k ((s.tickets.filter fun r => r.telegram_id == tid && !r.active).length)
    ∧ List.Sorted (· ≥ ·) acts
    ∧ (∀ t ∈ acts, t ∈ inactiveTicketsDesc s tid)
    ∧ (∀ y ∈ inactiveTicketsDesc s tid, y ∉ acts → ∀ x ∈ acts, y ≤ x)
    ∧ (∀ t, t ∈ activeNumbers s' ↔ t ∈ activeNumbers s ∨ t ∈ acts) := by
  have hrows := activate_payment_acts_rows h
  obtain ⟨p, s₁, hc, htid, hamt', hacts, hs'⟩ := activate_payment_success h
  obtain ⟨hp, hpinv, hpconf, hs₁⟩ := confirm_payment_some hc
  have htick : s₁.tickets = s.tickets := by rw [hs₁]
  have hdiv : p.amount / cfg.ticketPrice = (k : ℚ) := by
    rw [hamt', hamt]
    exact mul_div_cancel_left₀ _ (ne_of_gt hprice)
  have hexp : roundHalfEven (p.amount / cfg.ticketPrice) = (k : ℤ) := by
    rw [hdiv, roundHalfEven_natCast]
  have hacts' : acts = (inactiveTicketsDesc s tid).take k := by
    rw [hacts, hexp, if_neg (by omega), Int.toNat_natCast,
      inactiveTicketsDesc_congr htick, htid]
  have hsorted : List.Sorted (· ≥ ·) (inactiveTicketsDesc s tid) := by
    rw [inactiveTicketsDesc]
    exact List.sorted_insertionSort _ _
  refine ⟨hacts', ?_, ?_, ?_, ?_, ?_⟩
  · rw [hacts', List.length_take, inactiveTicketsDesc, List.length_insertionSort,
      List.length_map]
  · rw [hacts']
    exact hsorted.sublist (List.take_sublist k _)
  · intro t ht
    rw [hacts'] at ht
    exact List.mem_of_mem_take ht
  · intro y hy hyn x hx
    have hsplit := List.take_append_drop k (inactiveTicketsDesc s tid)
    have hpair : List.Pairwise (· ≥ ·)
        ((inactiveTicketsDesc s tid).take k ++ (inactiveTicketsDesc s tid).drop k) := by
      rw [hsplit]; exact hsorted
    have hy' : y ∈ (inactiveTicketsDesc s tid).take k ++ (inactiveTicketsDesc s tid).drop k := by
      rw [hsplit]; exact hy
    rcases List.mem_append.1 hy' with hy'' | hy''
    · exact absurd (hacts' ▸ hy'') hyn
    · exact (List.pairwise_append.1 hpair).2.2 x (hacts' ▸ hx) y hy''
  · intro t
    rw [hs']
    by_cases hemp : acts.isEmpty
    · have : acts = [] := by
        cases acts with
        | nil => rfl
        | cons a l => exact absurd hemp (by simp)
      rw [if_pos hemp, activeNumbers_congr htick, this]
      simp
    · rw [if_neg hemp]
      have hrows₁ : ∀ u ∈ acts, ∃ r ∈ s₁.tickets, r.ticket_number = u := by
        intro u hu
        obtain ⟨r, hr, hru, -, -⟩ := hrows u hu
        exact ⟨r, by rw [htick]; exact hr, hru⟩
      rw [activeNumbers_activate_iff s₁ acts hrows₁ t, activeNumbers_congr htick]

/-- Witness for C3 at the concrete scenario: confirming `"u1-1-3"` (amount
`3/2 = 0.5 * 3`) activates `[3, 2, 1]`, the owner's three inactive tickets in
descending order. -/
theorem activate_selects_highest_witness :
    ([3, 2, 1] : List Nat) = (inactiveTicketsDesc c1s1 "u1").take 3
    ∧ ([3, 2, 1] : List Nat).length
        = min 3 ((c1s1.tickets.filter fun r => r.telegram_id == "u1" && !r.active).length)
    ∧ (3 ∈ activeNumbers c1s2 ↔ 3 ∈ activeNumbers c1s1 ∨ 3 ∈ ([3, 2, 1] : List Nat)) := by
  have h := activate_selects_highest srcConfig c1s1 c1s2 "u1-1-3" "0xabc" [3, 2, 1] "u1"
    (3 / 2) 3 (by with_unfolding_all decide) (by with_unfolding_all decide)
    (by with_unfolding_all decide)
  exact ⟨h.1, h.2.1, h.2.2.2.2.2 3⟩

/-- C7: `reserve` rejects any quantity outside `[1, 100]` with the
invalid-quantity error and any in-range quantity exceeding availability with
the insufficient-capacity error; in both cases the returned state is exactly
the input state (no ticket row, no payment row, no cursor advance). -/
theorem reserve_invalid_rejected (cfg : Config) (s : LedgerState) (tid : String) (qty : Nat) :
    (qty < 1 ∨ qty > 100 →
      reserve_tickets cfg s tid qty = (Except.error LotteryError.invalidQuantity, s))
    ∧ (1 ≤ qty → qty ≤ 100 → qty > available cfg s →
      reserve_tickets cfg s tid qty = (Except.error LotteryError.insufficientCapacity, s)) := by
  constructor
  · intro h
    rw [reserve_tickets, if_pos h]
  · intro h1 h2 h3
    rw [reserve_tickets, if_neg (by omega), if_pos h3]

/-- Witness for C7: `reserve("u1", 0)` and `reserve("u1", 101)` fail with
InvalidQuantity on a fresh ledger, and with capacity 2 a request for 3
tickets fails with InsufficientCapacity; the state is unchanged each time. -/
theorem reserve_invalid_rejected_witness :
    reserve_tickets srcConfig initState "u1" 0
      = (Except.error LotteryError.invalidQuantity, initState)
    ∧ reserve_tickets srcConfig initState "u1" 101
      = (Except.error LotteryError.invalidQuantity, initState)
    ∧ reserve_tickets ⟨2, 1 / 2, [2500, 1500, 500], 500⟩ initState "u1" 3
      = (Except.error LotteryError.insufficientCapacity, initState) := by
  refine ⟨(reserve_invalid_rejected srcConfig initState "u1" 0).1 (by omega),
    (reserve_invalid_rejected srcConfig initState "u1" 101).1 (by omega),
    (reserve_invalid_rejected ⟨2, 1 / 2, [2500, 1500, 500], 500⟩ initState "u1" 3).2
      (by omega) (by omega) ?_⟩
  with_unfolding_all decide

/-- C8: availability is `max(0, capacity - activeTicketCount)` — computed from
the count of active ticket rows only, so that adding an inactive (pending)
ticket row never changes it — and an in-range `reserve` fails with
InsufficientCapacity exactly when the requested quantity exceeds it. -/
theorem available_counts_active_only (cfg : Config) (s : LedgerState) (tid : String)
    (qty : Nat) :
    ((available cfg s : ℤ)
        = max 0 ((cfg.maxTickets : ℤ) - ((s.tickets.filter fun r => r.active).length : ℤ)))
    ∧ (∀ r : Ticket, r.active = false →
        available cfg { s with tickets := r :: s.tickets } = available cfg s)
    ∧ (1 ≤ qty → qty ≤ 100 →
        ((reserve_tickets cfg s tid qty).1 = Except.error LotteryError.insufficientCapacity
          ↔ available cfg s < qty)) := by
  refine ⟨?_, ?_, ?_⟩
  · rw [available, count_sold_tickets]
    omega
  · intro r hr
    rw [available, available, count_sold_tickets, count_sold_tickets]
    simp [List.filter_cons, hr]
  · intro h1 h2
    constructor
    · intro herr
      by_contra hav
      rw [reserve_tickets, if_neg (by omega), if_neg (by omega)] at herr
      simp at herr
    · intro hav
      rw [reserve_tickets, if_neg (by omega), if_pos (by omega)]

/-- Witness for C8 on a concrete state: capacity 2, one active and one
inactive row; availability is 1, ignores the pending row, and a request for 2
tickets is rejected as InsufficientCapacity. -/
theorem available_counts_active_only_witness :
    ((available ⟨2, 1 / 2, [2500, 1500, 500], 500⟩
        ⟨["A"], [⟨1, "A", true⟩], [], [], 1, 2⟩ : ℤ)
      = max 0 ((2 : ℤ)
          - (((⟨["A"], [⟨1, "A", true⟩], [], [], 1, 2⟩ : LedgerState).tickets.filter
              fun r => r.active).length : ℤ)))
    ∧ available ⟨2, 1 / 2, [2500, 1500, 500], 500⟩
        ⟨["A"], [⟨2, "A", false⟩, ⟨1, "A", true⟩], [], [], 1, 2⟩
      = available ⟨2, 1 / 2, [2500, 1500, 500], 500⟩ ⟨["A"], [⟨1, "A", true⟩], [], [], 1, 2⟩
    ∧ ((reserve_tickets ⟨2, 1 / 2, [2500, 1500, 500], 500⟩
          ⟨["A"], [⟨1, "A", true⟩], [], [], 1, 2⟩ "A" 2).1
        = Except.error LotteryError.insufficientCapacity
      ↔ available ⟨2, 1 / 2, [2500, 1500, 500], 500⟩ ⟨["A"], [⟨1, "A", true⟩], [], [], 1, 2⟩ < 2) := by
  have H := available_counts_active_only ⟨2, 1 / 2, [2500, 1500, 500], 500⟩
    ⟨["A"], [⟨1, "A", true⟩], [], [], 1, 2⟩ "A" 2
  exact ⟨H.1, H.2.1 ⟨2, "A", false⟩ rfl, H.2.2 (by omega) (by omega)⟩

/-- A capacity-2 configuration used to exhibit over-allocation: two paid-for
batches of the same owner overlap because availability ignores pending
reservations and activation is owner-scoped. -/
def cexCfg : Config := ⟨2, 1 / 2, [2500, 1500, 500], 500⟩

/-- `reserve("A", 2)` from a fresh ledger (tickets 1, 2; invoice `"A-1-2"`). -/
def cexS1 : LedgerState := (reserve_tickets cexCfg initState "A" 2).2

/-- A second `reserve("A", 2)` (tickets 3, 4; invoice `"A-3-4"`); still allowed
because no ticket is active yet. -/
def cexS2 : LedgerState := (reserve_tickets cexCfg cexS1 "A" 2).2

/-- Confirming `"A-1-2"` activates the two highest inactive tickets 4, 3. -/
def cexS3 : LedgerState := (activate_payment cexCfg cexS2 "A-1-2" "h1").2

/-- Confirming `"A-3-4"` activates tickets 2, 1: four active tickets in a
capacity-2 lottery. -/
def cexS4 : LedgerState := (activate_payment cexCfg cexS3 "A-3-4" "h2").2

theorem cexS4_reachable : Reachable cexCfg cexS4 :=
  Reachable.confirm cexS3 "A-3-4" "h2" (Reachable.confirm cexS2 "A-1-2" "h1"
    (Reachable.reserve cexS1 "A" 2 (Reachable.reserve initState "A" 2 Reachable.init)))

/-- C4 counterexample: in the reachable state `cexS4` the active-ticket count
is 4, not the capacity 2, yet `draw()` succeeds — so "succeeds only when the
active-ticket count equals capacity exactly" is false; the code only checks
`sold < MAX_TICKETS`. -/
theorem draw_succeeds_beyond_capacity_cex :
    Reachable cexCfg cexS4
    ∧ count_sold_tickets cexS4 = 4
    ∧ cexCfg.maxTickets = 2
    ∧ (draw_winners cexCfg (fun l n => l.take n) cexS4).1.isOk = true := by
  refine ⟨cexS4_reachable, ?_, rfl, ?_⟩
  · with_unfolding_all decide
  · with_unfolding_all decide

/-- C4 amended: `draw()` fails with NotReady exactly when the active count is
below capacity, fails with InsufficientPool when the count is at least
capacity but the pool has fewer than 3 members, and succeeds (writing exactly
one draw record) whenever the count is at least — not exactly — capacity and
the pool has at least 3 members; on either failure the ledger is unchanged. -/
theorem draw_precondition_spec (cfg : Config) (sample : List Nat → Nat → List Nat)
    (s : LedgerState) :
    (count_sold_tickets s < cfg.maxTickets →
      draw_winners cfg sample s = (Except.error LotteryError.notReady, s))
    ∧ (cfg.maxTickets ≤ count_sold_tickets s → (get_all_active_tickets s).length < 3 →
      draw_winners cfg sample s = (Except.error LotteryError.insufficientPool, s))
    ∧ (cfg.maxTickets ≤ count_sold_tickets s → 3 ≤ (get_all_active_tickets s).length →
      draw_winners cfg sample s
        = (Except.ok ⟨sample (get_all_active_tickets s) 3,
            computePayouts s (sample (get_all_active_tickets s) 3) cfg.prizes, cfg.botFee⟩,
          save_draw s (sample (get_all_active_tickets s) 3) cfg.prizes)) := by
  refine ⟨?_, ?_, ?_⟩
  · intro h1
    simp only [draw_winners]
    rw [if_pos h1]
  · intro h1 h2
    simp only [draw_winners]
    rw [if_neg (by omega), if_pos h2]
  · intro h1 h2
    simp only [draw_winners]
    rw [if_neg (by omega), if_neg (by omega)]

/-- Witness for the amended C4: the three branches at concrete states — a
fresh ledger is NotReady, a full capacity-1 pool of one ticket is an
insufficient pool, and the over-allocated `cexS4` draws successfully. -/
theorem draw_precondition_spec_witness :
    draw_winners srcConfig (fun l n => l.take n) initState
      = (Except.error LotteryError.notReady, initState)
    ∧ draw_winners ⟨1, 1 / 2, [2500, 1500, 500], 500⟩ (fun l n => l.take n)
        ⟨["A"], [⟨1, "A", true⟩], [], [], 1, 2⟩
      = (Except.error LotteryError.insufficientPool, ⟨["A"], [⟨1, "A", true⟩], [], [], 1, 2⟩)
    ∧ draw_winners cexCfg (fun l n => l.take n) cexS4
      = (Except.ok ⟨[1, 2, 3], computePayouts cexS4 [1, 2, 3] cexCfg.prizes, cexCfg.botFee⟩,
        save_draw cexS4 [1, 2, 3] cexCfg.prizes) := by
  refine ⟨(draw_precondition_spec srcConfig (fun l n => l.take n) initState).1
      (by with_unfolding_all decide),
    (draw_precondition_spec ⟨1, 1 / 2, [2500, 1500, 500], 500⟩ (fun l n => l.take n)
      ⟨["A"], [⟨1, "A", true⟩], [], [], 1, 2⟩).2.1 (by with_unfolding_all decide)
      (by with_unfolding_all decide), ?_⟩
  have h1 : cexCfg.maxTickets ≤ count_sold_tickets cexS4 := by with_unfolding_all decide
  have h2 : 3 ≤ (get_all_active_tickets cexS4).length := by with_unfolding_all decide
  have H := (draw_precondition_spec cexCfg (fun l n => l.take n) cexS4).2.2 h1 h2
  with_unfolding_all exact H

/-- C6 counterexample: the reachable state `cexS4` has 4 active tickets in a
capacity-2 lottery — invariant I2 ("active count never exceeds capacity") is
violated by the code, exactly via the over-allocation hazard the spec's §9
describes. -/
theorem active_exceeds_capacity_cex :
    Reachable cexCfg cexS4 ∧ cexCfg.maxTickets = 2 ∧ count_sold_tickets cexS4 = 4 := by
  refine ⟨cexS4_reachable, rfl, ?_⟩
  with_unfolding_all decide

/-- C6 amended: in every reachable state the active-ticket count is bounded by
the number of ticket numbers ever allocated (`next_ticket - 1`), but it can
exceed the configured capacity (see the counterexample). -/
theorem active_le_allocated (cfg : Config) (s : LedgerState) (hre : Reachable cfg s) :
    count_sold_tickets s < s.next_ticket := by
  have hI := reach_inv hre
  have h1 : count_sold_tickets s ≤ s.tickets.length :=
    List.length_filter_le _ _
  have h2 := hI.ticketBound
  omega

/-- Witness for the amended C6: at `cexS4`, 4 active tickets and cursor 5. -/
theorem active_le_allocated_witness : count_sold_tickets cexS4 < cexS4.next_ticket :=
  active_le_allocated cexCfg cexS4 cexS4_reachable

/-- Anatomy of a successful `draw_winners` call. -/
theorem draw_winners_ok {cfg : Config} {sample : List Nat → Nat → List Nat}
    {s : LedgerState} {r : DrawResult} {s' : LedgerState}
    (h : draw_winners cfg sample s = (Except.ok r, s')) :
    cfg.maxTickets ≤ count_sold_tickets s
    ∧ 3 ≤ (get_all_active_tickets s).length
    ∧ r = ⟨sample (get_all_active_tickets s) 3,
        computePayouts s (sample (get_all_active_tickets s) 3) cfg.prizes, cfg.botFee⟩
    ∧ s' = save_draw s (sample (get_all_active_tickets s) 3) cfg.prizes := by
  simp only [draw_winners] at h
  split_ifs at h with h1 h2
  · exact absurd (congrArg Prod.fst h) (by simp)
  · exact absurd (congrArg Prod.fst h) (by simp)
  · simp only [Prod.mk.injEq, Except.ok.injEq] at h
    exact ⟨by omega, by omega, h.1.symm, h.2.symm⟩

/-- Unfolding the payout-aggregation loop: the final dict value at any key is
the accumulator value plus the prizes of the winning slots owned by that key. -/
theorem computePayouts_apply (s : LedgerState) (l : List (Nat × ℚ))
    (acc : Option String → ℚ) (o : Option String) :
    (l.foldl (fun payouts tp o' =>
        if o' = get_ticket_owner s tp.1 then payouts o' + tp.2 else payouts o') acc) o
      = acc o + ((l.filter fun tp => get_ticket_owner s tp.1 == o).map fun tp => tp.2).sum := by
  induction l generalizing acc with
  | nil => simp
  | cons tp l ih =>
    rw [List.foldl_cons, ih]
    by_cases hc : get_ticket_owner s tp.1 = o
    · rw [List.filter_cons_of_pos (by simp [hc])]
      simp only [List.map_cons, List.sum_cons]
      rw [if_pos hc.symm]
      ring
    · rw [List.filter_cons_of_neg (by simp [hc]), if_neg (fun hh => hc hh.symm)]

theorem computePayouts_eq (s : LedgerState) (winners : List Nat) (prizes : List ℚ)
    (o : Option String) :
    computePayouts s winners prizes o
      = (((winners.zip prizes).filter fun tp => get_ticket_owner s tp.1 == o).map
          fun tp => tp.2).sum := by
  rw [computePayouts, computePayouts_apply]
  simp

/-- C5: a successful `draw()` returns exactly 3 pairwise-distinct ticket
numbers, each from the active pool at draw time, assigns the configured
prizes positionally (`prizes[i]` to `winners[i]`), and the payouts dict gives
each owner the sum of the prize amounts over the winning slots whose ticket
they own.  The three hypotheses on `sample` are the documented contract of
`random.sample(pool, 3)`. -/
theorem draw_result_spec (cfg : Config) (sample : List Nat → Nat → List Nat)
    (s s' : LedgerState) (r : DrawResult)
    (h : draw_winners cfg sample s = (Except.ok r, s'))
    (hlen : (sample (get_all_active_tickets s) 3).length = 3)
    (hnd : (sample (get_all_active_tickets s) 3).Nodup)
    (hsub : ∀ t ∈ sample (get_all_active_tickets s) 3, t ∈ get_all_active_tickets s) :
    r.winners.length = 3
    ∧ r.winners.Nodup
    ∧ (∀ t ∈ r.winners, t ∈ activeNumbers s)
    ∧ (∀ o : Option String, r.payouts o
        = (((r.winners.zip cfg.prizes).filter fun tp => get_ticket_owner s tp.1 == o).map
            fun tp => tp.2).sum) := by
  obtain ⟨-, -, hr, -⟩ := draw_winners_ok h
  subst hr
  refine ⟨hlen, hnd, ?_, ?_⟩
  · intro t ht
    have := hsub t ht
    rw [get_all_active_tickets, List.mem_insertionSort] at this
    exact this
  · intro o
    exact computePayouts_eq s _ cfg.prizes o

/-- The capacity-3 configuration for the concrete draw scenarios. -/
def cfg3 : Config := ⟨3, 1 / 2, [2500, 1500, 500], 500⟩

/-- A full capacity-3 pool, as after three confirmed single-ticket
reservations: tickets 1 and 3 owned by `"u1"`, ticket 2 by `"u2"`, all
active. -/
def c5state : LedgerState :=
  ⟨["u1", "u2"],
   [⟨1, "u1", true⟩, ⟨2, "u2", true⟩, ⟨3, "u1", true⟩],
   [⟨1, "u1", "u1-1-1", 1 / 2, "a", true⟩, ⟨2, "u2", "u2-2-2", 1 / 2, "b", true⟩,
    ⟨3, "u1", "u1-3-3", 1 / 2, "c", true⟩],
   [], 4, 4⟩

/-- Witness for C5: drawing `[1, 2, 3]` with prizes `(2500, 1500, 500)` pays
owner `"u1"` (winner of slots 0 and 2) an aggregated `3000` and owner `"u2"`
(slot 1) `1500`; the winners are distinct members of the pool. -/
theorem draw_result_spec_witness :
    computePayouts c5state [1, 2, 3] cfg3.prizes (some "u1") = 3000
    ∧ computePayouts c5state [1, 2, 3] cfg3.prizes (some "u2") = 1500
    ∧ ([1, 2, 3] : List Nat).Nodup
    ∧ 1 ∈ activeNumbers c5state := by
  have h : draw_winners cfg3 (fun l n => l.take n) c5state
      = (Except.ok ⟨[1, 2, 3], computePayouts c5state [1, 2, 3] cfg3.prizes, cfg3.botFee⟩,
        save_draw c5state [1, 2, 3] cfg3.prizes) := by
    with_unfolding_all rfl
  have H := draw_result_spec cfg3 (fun l n => l.take n) c5state
    (save_draw c5state [1, 2, 3] cfg3.prizes)
    ⟨[1, 2, 3], computePayouts c5state [1, 2, 3] cfg3.prizes, cfg3.botFee⟩ h
    (by with_unfolding_all decide) (by with_unfolding_all decide)
    (by with_unfolding_all decide)
  have h1 : get_ticket_owner c5state 1 = some "u1" := by with_unfolding_all decide
  have h2 : get_ticket_owner c5state 2 = some "u2" := by with_unfolding_all decide
  have h3 : get_ticket_owner c5state 3 = some "u1" := by with_unfolding_all decide
  have hzip : (([1, 2, 3] : List Nat).zip cfg3.prizes)
      = [(1, 2500), (2, 1500), (3, 500)] := rfl
  refine ⟨?_, ?_, H.2.1, H.2.2.1 1 (by with_unfolding_all decide)⟩
  · refine (H.2.2.2 (some "u1")).trans ?_
    show (((([1, 2, 3] : List Nat).zip cfg3.prizes).filter
        fun tp => get_ticket_owner c5state tp.1 == some "u1").map fun tp => tp.2).sum = 3000
    rw [hzip, List.filter_cons_of_pos (by rw [h1]; rfl),
      List.filter_cons_of_neg (by rw [h2]; simp),
      List.filter_cons_of_pos (by rw [h3]; rfl)]
    norm_num
  · refine (H.2.2.2 (some "u2")).trans ?_
    show (((([1, 2, 3] : List Nat).zip cfg3.prizes).filter
        fun tp => get_ticket_owner c5state tp.1 == some "u2").map fun tp => tp.2).sum = 1500
    rw [hzip, List.filter_cons_of_neg (by rw [h1]; simp),
      List.filter_cons_of_pos (by rw [h2]; rfl),
      List.filter_cons_of_neg (by rw [h3]; simp)]
    norm_num

/-- C9: a successful `draw()` modifies neither the tickets table nor the
payments table (nor the users table or the cursors) — it only appends one
draw row — and therefore an immediately following `draw()` with any sampling
outcome succeeds again, re-sampling from the same active pool.  There is no
one-draw-per-filling guard. -/
theorem draw_frame_repeatable (cfg : Config) (sample : List Nat → Nat → List Nat)
    (s s' : LedgerState) (r : DrawResult)
    (h : draw_winners cfg sample s = (Except.ok r, s')) :
    s'.tickets = s.tickets
    ∧ s'.payments = s.payments
    ∧ s'.users = s.users
    ∧ s'.next_ticket = s.next_ticket
    ∧ s'.next_payment_id = s.next_payment_id
    ∧ s'.draws = s.draws ++ [⟨r.winners, cfg.prizes⟩]
    ∧ get_all_active_tickets s' = get_all_active_tickets s
    ∧ ∀ sample₂ : List Nat → Nat → List Nat, ∃ r₂ s'',
        draw_winners cfg sample₂ s' = (Except.ok r₂, s'')
        ∧ r₂.winners = sample₂ (get_all_active_tickets s) 3 := by
  obtain ⟨hsold, hpool, hr, hs'⟩ := draw_winners_ok h
  have htick : s'.tickets = s.tickets := by rw [hs']; simp
  have hpool' : get_all_active_tickets s' = get_all_active_tickets s :=
    get_all_active_tickets_congr htick
  have hsold' : count_sold_tickets s' = count_sold_tickets s :=
    count_sold_tickets_congr htick
  refine ⟨htick, by rw [hs']; simp, by rw [hs']; simp, by rw [hs']; simp,
    by rw [hs']; simp, ?_, hpool', ?_⟩
  · rw [hs', hr]
    simp
  · intro sample₂
    refine ⟨⟨sample₂ (get_all_active_tickets s') 3,
      computePayouts s' (sample₂ (get_all_active_tickets s') 3) cfg.prizes, cfg.botFee⟩,
      save_draw s' (sample₂ (get_all_active_tickets s') 3) cfg.prizes, ?_, ?_⟩
    · simp only [draw_winners]
      rw [if_neg (by omega), if_neg (by rw [hpool']; omega)]
    · rw [hpool']

/-- Witness for C9: after the capacity-3 pool draw, tickets and payments are
untouched, one draw row is appended, and a second draw still succeeds. -/
theorem draw_frame_repeatable_witness :
    (save_draw c5state [1, 2, 3] cfg3.prizes).tickets = c5state.tickets
    ∧ (save_draw c5state [1, 2, 3] cfg3.prizes).payments = c5state.payments
    ∧ (save_draw c5state [1, 2, 3] cfg3.prizes).draws
        = c5state.draws ++ [⟨[1, 2, 3], cfg3.prizes⟩]
    ∧ ∃ r₂ s'', draw_winners cfg3 (fun l n => l.take n)
          (save_draw c5state [1, 2, 3] cfg3.prizes) = (Except.ok r₂, s'')
        ∧ r₂.winners = (fun l n => l.take n) (get_all_active_tickets c5state) 3 := by
  have h : draw_winners cfg3 (fun l n => l.take n) c5state
      = (Except.ok ⟨[1, 2, 3], computePayouts c5state [1, 2, 3] cfg3.prizes, cfg3.botFee⟩,
        save_draw c5state [1, 2, 3] cfg3.prizes) := by
    with_unfolding_all rfl
  have H := draw_frame_repeatable cfg3 (fun l n => l.take n) c5state
    (save_draw c5state [1, 2, 3] cfg3.prizes)
    ⟨[1, 2, 3], computePayouts c5state [1, 2, 3] cfg3.prizes, cfg3.botFee⟩ h
  exact ⟨H.1, H.2.1, H.2.2.2.2.2.1, H.2.2.2.2.2.2.2 (fun l n => l.take n)⟩

/-- C10: if a successful `confirm` finds its owner with zero inactive tickets,
it still reports success with an empty activated list, still marks the
payment confirmed and records the tx hash, leaves every ticket row untouched,
and every subsequent `confirm` of the same invoice id fails with the
not-found-or-already-confirmed result — even though no ticket was ever
activated for that invoice. -/
theorem confirm_zero_inactive (cfg : Config) (s s' : LedgerState) (inv tx tx₂ : String)
    (acts : List Nat) (tid : String) (amt : ℚ)
    (hre : Reachable cfg s)
    (h : activate_payment cfg s inv tx = (ConfirmResult.success acts tid amt, s'))
    (hz : inactiveTicketsDesc s tid = []) :
    acts = []
    ∧ s'.tickets = s.tickets
    ∧ (∃ p ∈ s.payments, p.telegram_id = tid ∧ p.amount = amt ∧ p.confirmed = false
        ∧ p.invoice_id = inv
        ∧ s'.payments = s.payments.map fun q =>
            if q.id = p.id then { q with confirmed := true, tx_hash := tx } else q)
    ∧ activate_payment cfg s' inv tx₂ = (ConfirmResult.failure, s') := by
  obtain ⟨p, s₁, hc, htid, hamt, hacts, hs'⟩ := activate_payment_success h
  obtain ⟨hp, hpinv, hpconf, hs₁⟩ := confirm_payment_some hc
  have hI := reach_inv hre
  have htick : s₁.tickets = s.tickets := by rw [hs₁]
  have hactsnil : acts = [] := by
    rw [hacts, inactiveTicketsDesc_congr htick, htid, hz]
    split_ifs <;> simp
  have hs'' : s' = s₁ := by
    rw [hs', hactsnil]
    rfl
  have huniq : ∀ q ∈ s.payments, q.invoice_id = inv → q = p := by
    intro q hq hqi
    exact invoice_unique_of_inv hI hp hq (by rw [hqi, hpinv])
  have hnil : pendingFor s₁.payments inv = [] := pending_nil_after_confirm huniq hc
  refine ⟨hactsnil, by rw [hs'', htick], ⟨p, hp, htid, hamt, hpconf, hpinv, ?_⟩, ?_⟩
  · rw [hs'', hs₁]
  · rw [hs'']
    exact activate_payment_of_pending_nil cfg hnil tx₂

/-- A configuration with `TICKET_PRICE = 1/1500000`: the six-decimal rounding
of the unit price inflates `expected_qty` past the purchased quantity, which
lets a confirmation strand a later pending payment with no inactive tickets
left for its owner. -/
def xCfg : Config := ⟨10, 1 / 1500000, [2500, 1500, 500], 500⟩

def xS1 : LedgerState := (reserve_tickets xCfg initState "A" 1).2

def xS2 : LedgerState := (reserve_tickets xCfg xS1 "A" 1).2

/-- Confirming `"A-1-1"` activates both of A's tickets (`expected_qty = 2` by
banker's rounding of `1.5`), leaving the pending `"A-2-2"` with no inactive
tickets. -/
def xS3 : LedgerState := (activate_payment xCfg xS2 "A-1-1" "h1").2

def xS4 : LedgerState := (activate_payment xCfg xS3 "A-2-2" "h2").2

theorem xS3_reachable : Reachable xCfg xS3 :=
  Reachable.confirm xS2 "A-1-1" "h1"
    (Reachable.reserve xS1 "A" 1 (Reachable.reserve initState "A" 1 Reachable.init))

/-- Witness for C10: confirming the stranded invoice `"A-2-2"` succeeds with
an empty activated list, touches no ticket row, and a repeat confirmation of
the same invoice fails. -/
theorem confirm_zero_inactive_witness :
    ([] : List Nat) = []
    ∧ xS4.tickets = xS3.tickets
    ∧ activate_payment xCfg xS4 "A-2-2" "h3" = (ConfirmResult.failure, xS4) := by
  have h : activate_payment xCfg xS3 "A-2-2" "h2"
      = (ConfirmResult.success [] "A" (1 / 1000000), xS4) := by
    with_unfolding_all rfl
  have H := confirm_zero_inactive xCfg xS3 xS4 "A-2-2" "h2" "h3" [] "A" (1 / 1000000)
    xS3_reachable h (by with_unfolding_all rfl)
  exact ⟨H.1, H.2.1, H.2.2.2⟩

end Lottery
